import Mathlib

/-!
Verification development for the accessibility-logger extension.

The definitions below are a shallow embedding of the repository's code:

* `background.js` — the `accessibility-event` branch of the
  `chrome.runtime.onMessage` listener: the persisted `accessibilityEvents`
  list (the Mailbox, capacity 1000) with id-if-absent assignment and
  oldest-first trimming via `events.splice(0, events.length - 1000)`.
* `content.js` (the variant with `TextReader`) — `queueOrSendEvent`
  (the Local Bounded Queue, capacity 100, gated on `isDevToolsReady`),
  `processEventQueue` (the drain loop), `TextReader` (cursor navigation),
  the ArrowDown branch of the keydown listener, and the
  `reinitialize`/`cleanup` lifecycle.
* `panel.js` — `fetchEventsFromStorage` (id-based dedup against
  `logEntries`) and `addLogEntry`/`renderLogEntry` (newest-first order).

JS numbers standing for ids are modelled as `Nat`; a possibly-absent
`id` field is `Option Nat` (`none` = the key is absent / `undefined`).
JS truthiness of a numeric id (`!message.data.id`) is false exactly for
an absent id or the number 0.
-/

set_option maxRecDepth 8000

/-- An accessibility event as relayed through the pipeline: the `id`
field (absent = `none`) and a stand-in for the remaining payload. -/
structure AEvent where
  id : Option Nat
  payload : Nat
  deriving DecidableEq, Repr

/-- JS truthiness test `!data.id` for the numeric `id` field: true when
the id is absent or the number 0. -/
def idFalsy : Option Nat → Bool
  | none => true
  | some v => v == 0

/-- `background.js` lines 46-48: `if (!message.data.id) { message.data.id
= Date.now() + Math.random(); }` — assign a fresh id when the incoming
one is falsy. `fresh` stands for `Date.now() + Math.random()`. -/
def assignIdIfMissing (data : AEvent) (fresh : Nat) : AEvent :=
  if idFalsy data.id then { data with id := some fresh } else data

/-- `background.js` lines 52-55: after `events.push(...)`, `if
(events.length > 1000) { events.splice(0, events.length - 1000); }` —
keep only the last 1000 entries. -/
def trimMailbox (es : List AEvent) : List AEvent :=
  if es.length > 1000 then es.drop (es.length - 1000) else es

/-- `background.js` lines 43-55, the `accessibility-event` branch:
read the stored list, assign an id if falsy, push at the end, trim to
the last 1000. -/
def handleAccessibilityEvent (events : List AEvent) (data : AEvent) (fresh : Nat) :
    List AEvent :=
  trimMailbox (events ++ [assignIdIfMissing data fresh])

/-- The concrete event #k used in the 1001-event Mailbox scenario:
id `k`, irrelevant payload. -/
def mkE (k : Nat) : AEvent := ⟨some k, 0⟩

/-- State of the content script's readiness gate: `isDevToolsReady`, the
Local Bounded Queue `eventQueue`, and the history of events handed to
`sendAccessibilityEvent` (the Relay Channel). -/
structure GateState where
  isDevToolsReady : Bool
  eventQueue : List Nat
  sent : List Nat
  deriving DecidableEq, Repr

/-- `content.js` `queueOrSendEvent` (lines 834-845): if DevTools is
ready, send immediately; otherwise push onto `eventQueue` and, when the
queue length exceeds 100, `shift()` one entry from the front. -/
def queueOrSendEvent (s : GateState) (e : Nat) : GateState :=
  if s.isDevToolsReady then
    { s with sent := s.sent ++ [e] }
  else
    let q := s.eventQueue ++ [e]
    { s with eventQueue := if q.length > 100 then q.tail else q }

/-- The drain loop of `content.js` `processEventQueue` (lines 689-694):
`while (queue.length > 0) { send(queue.shift()) }`, expressed on the
queue and the sent history. -/
def drainLoop : List Nat → List Nat → List Nat × List Nat
  | [], sent => ([], sent)
  | e :: rest, sent => drainLoop rest (sent ++ [e])

/-- `processEventQueue` on the gate state: repeatedly shift the head of
the queue and send it. -/
def processEventQueue (s : GateState) : GateState :=
  let (q, sent) := drainLoop s.eventQueue s.sent
  { s with eventQueue := q, sent := sent }

/-- The `devtools-ready` message branch: set the readiness flag, then
drain the queue. -/
def onDevToolsReady (s : GateState) : GateState :=
  processEventQueue { s with isDevToolsReady := true }

/-- A fresh monitor's gate state: `isDevToolsReady = false`, empty queue. -/
def gateInit : GateState := ⟨false, [], []⟩

/-- Submit a sequence of events through `queueOrSendEvent`. -/
def submitAll (s : GateState) (xs : List Nat) : GateState :=
  xs.foldl queueOrSendEvent s

/-! ### Mailbox lemmas (background.js) -/

theorem trimMailbox_of_le (es : List AEvent) (h : es.length ≤ 1000) :
    trimMailbox es = es := by
  simp [trimMailbox, Nat.not_lt.mpr h]

theorem assignIdIfMissing_of_not_falsy (data : AEvent) (fresh : Nat)
    (h : idFalsy data.id = false) : assignIdIfMissing data fresh = data := by
  simp [assignIdIfMissing, h]

theorem handleAccessibilityEvent_length_le (events : List AEvent) (data : AEvent)
    (fresh : Nat) : (handleAccessibilityEvent events data fresh).length ≤ 1000 := by
  unfold handleAccessibilityEvent trimMailbox
  by_cases h : (events ++ [assignIdIfMissing data fresh]).length > 1000
  · simp only [if_pos h, List.length_drop]
    omega
  · simp only [if_neg h]
    omega

theorem foldl_handle_no_trim :
    ∀ (xs : List AEvent) (es : List AEvent),
      (∀ e ∈ xs, idFalsy e.id = false) → es.length + xs.length ≤ 1000 →
      xs.foldl (fun a e => handleAccessibilityEvent a e 0) es = es ++ xs := by
  intro xs
  induction xs with
  | nil => intro es _ _; simp
  | cons e rest ih =>
    intro es hids hlen
    have he : idFalsy e.id = false := hids e (List.mem_cons_self e rest)
    have hstep : handleAccessibilityEvent es e 0 = es ++ [e] := by
      rw [handleAccessibilityEvent, assignIdIfMissing_of_not_falsy e 0 he,
        trimMailbox_of_le]
      simp only [List.length_append, List.length_cons, List.length_nil]
      simp only [List.length_cons] at hlen
      omega
    have hrest : ∀ x ∈ rest, idFalsy x.id = false := fun x hx =>
      hids x (List.mem_cons_of_mem e hx)
    have hlen2 : (es ++ [e]).length + rest.length ≤ 1000 := by
      simp only [List.length_append, List.length_cons, List.length_nil]
      simp only [List.length_cons] at hlen
      omega
    calc (e :: rest).foldl (fun a x => handleAccessibilityEvent a x 0) es
        = rest.foldl (fun a x => handleAccessibilityEvent a x 0) (es ++ [e]) := by
          simp [hstep]
      _ = (es ++ [e]) ++ rest := ih (es ++ [e]) hrest hlen2
      _ = es ++ (e :: rest) := by simp

theorem mkE_not_falsy (k : Nat) (hk : 1 ≤ k) : idFalsy (mkE k).id = false := by
  simp [mkE, idFalsy]
  omega

/-- C1: the Mailbox (`accessibilityEvents`, capacity 1000) never exceeds
1000 entries after any append, and submitting 1001 sequential events
(ids 1..1001) to an empty Mailbox leaves exactly events #2..#1001 in
submission order, with event #1 evicted. -/
theorem mailbox_capacity_and_overflow_scenario :
    (∀ (events : List AEvent) (data : AEvent) (fresh : Nat),
        (handleAccessibilityEvent events data fresh).length ≤ 1000) ∧
    ((List.range' 1 1001).map mkE).foldl (fun es e => handleAccessibilityEvent es e 0) []
      = (List.range' 2 1000).map mkE := by
  refine ⟨handleAccessibilityEvent_length_le, ?_⟩
  have hsplit : List.range' 1 1001 = List.range' 1 1000 ++ [1001] := by
    have h := (List.range'_concat 1 1000 :
      List.range' 1 1001 1 = List.range' 1 1000 1 ++ [1 + 1 * 1000])
    simpa using h
  have hcons : List.range' 1 1001 = 1 :: List.range' 2 1000 := by
    have h := (List.range'_succ 1 1000 1 :
      List.range' 1 1001 1 = 1 :: List.range' 2 1000 1)
    simpa using h
  rw [hsplit, List.map_append, List.foldl_append]
  have hids : ∀ e ∈ (List.range' 1 1000).map mkE, idFalsy e.id = false := by
    intro e he
    rcases List.mem_map.mp he with ⟨k, hk, rfl⟩
    exact mkE_not_falsy k (List.mem_range'_1.mp hk).1
  have hfold : ((List.range' 1 1000).map mkE).foldl
      (fun a e => handleAccessibilityEvent a e 0) [] = (List.range' 1 1000).map mkE := by
    have h := foldl_handle_no_trim ((List.range' 1 1000).map mkE) [] hids (by simp)
    simpa using h
  rw [hfold]
  simp only [List.map_cons, List.foldl_cons, List.foldl_nil]
  rw [handleAccessibilityEvent,
    assignIdIfMissing_of_not_falsy (mkE 1001) 0 (mkE_not_falsy 1001 (by omega))]
  have hlist : (List.range' 1 1000).map mkE ++ [mkE 1001]
      = (List.range' 1 1001).map mkE := by
    rw [hsplit, List.map_append]; rfl
  rw [hlist, trimMailbox]
  have hlen : ((List.range' 1 1001).map mkE).length = 1001 := by simp
  rw [if_pos (by rw [hlen]; omega), hlen]
  rw [← List.map_drop, hcons]
  rfl

/-! ### Local Bounded Queue lemmas (content.js) -/

theorem queueOrSendEvent_queue_le (s : GateState) (e : Nat)
    (h : s.eventQueue.length ≤ 100) :
    (queueOrSendEvent s e).eventQueue.length ≤ 100 := by
  unfold queueOrSendEvent
  by_cases hr : s.isDevToolsReady
  · simpa [hr] using h
  · simp only [hr, Bool.false_eq_true, if_false]
    by_cases hq : (s.eventQueue ++ [e]).length > 100
    · simp only [if_pos hq, List.length_tail]
      simp only [List.length_append, List.length_cons, List.length_nil] at hq ⊢
      omega
    · simp only [if_neg hq]
      omega

theorem submitAll_queue_le :
    ∀ (xs : List Nat) (s : GateState), s.eventQueue.length ≤ 100 →
      (submitAll s xs).eventQueue.length ≤ 100 := by
  intro xs
  induction xs with
  | nil => intro s h; simpa [submitAll] using h
  | cons e rest ih =>
    intro s h
    have : submitAll s (e :: rest) = submitAll (queueOrSendEvent s e) rest := by
      simp [submitAll]
    rw [this]
    exact ih (queueOrSendEvent s e) (queueOrSendEvent_queue_le s e h)

/-- C3: starting from a fresh monitor with DevTools not ready, the Local
Bounded Queue never exceeds capacity 100 after any submit completes, and
the 101st submitted item (ids 1..101) evicts the 1st queued item only:
the queue ends as exactly items #2..#101. -/
theorem local_queue_capacity_and_eviction :
    (∀ xs : List Nat, (submitAll gateInit xs).eventQueue.length ≤ 100) ∧
    (submitAll gateInit (List.range' 1 101)).eventQueue = List.range' 2 100 := by
  constructor
  · intro xs
    exact submitAll_queue_le xs gateInit (by simp [gateInit])
  · decide

/-! ### Drain-on-ready lemmas (content.js processEventQueue) -/

theorem drainLoop_spec : ∀ (q sent : List Nat), drainLoop q sent = ([], sent ++ q) := by
  intro q
  induction q with
  | nil => intro sent; simp [drainLoop]
  | cons e rest ih =>
    intro sent
    rw [drainLoop, ih (sent ++ [e])]
    simp

/-- C4: on the transition to ready (`devtools-ready` handler), the drain
loop forwards every queued event downstream in original oldest-first
submission order and leaves the queue empty. -/
theorem drain_preserves_order_and_empties :
    ∀ s : GateState,
      (onDevToolsReady s).eventQueue = [] ∧
      (onDevToolsReady s).sent = s.sent ++ s.eventQueue ∧
      (processEventQueue s).eventQueue = [] ∧
      (processEventQueue s).sent = s.sent ++ s.eventQueue := by
  intro s
  refine ⟨?_, ?_, ?_, ?_⟩ <;>
    simp [onDevToolsReady, processEventQueue, drainLoop_spec]

/-! ### Panel consumer (panel.js) -/

/-- `panel.js` `addLogEntry` lines 322-326: `const entry = { id:
eventData.id || (Date.now() + Math.random()), ...eventData, expanded:
false }`. Because the spread of `eventData` comes after the `id` key, an
`id` present on `eventData` (even a falsy one) overwrites the computed
fallback; the fallback `fresh` survives only when `eventData` carries no
`id` key at all. -/
def panelEntryId (evId : Option Nat) (fresh : Nat) : Nat :=
  match evId with
  | some v => v
  | none => fresh

/-- Panel state: `logEntries` (ids, newest first, via `unshift`), and
the DOM children of `logEntriesContainer` (ids, first child first, via
`insertBefore(el, firstChild)`); each `renderLogEntry` call inserts
exactly one element. -/
structure PanelState where
  logEntries : List Nat
  dom : List Nat
  deriving DecidableEq, Repr

/-- The panel before any event arrives. -/
def panelInit : PanelState := ⟨[], []⟩

/-- `panel.js` `addLogEntry` (lines 317-342): skip when logging is
disabled; compute the entry id; refuse an id already present in
`logEntries`; otherwise `unshift` onto `logEntries` and render (insert
before the container's first child). -/
def addLogEntry (isLoggingEnabled : Bool) (s : PanelState) (evId : Option Nat)
    (fresh : Nat) : PanelState :=
  if isLoggingEnabled = false then s
  else
    let entryId := panelEntryId evId fresh
    if entryId ∈ s.logEntries then s
    else { logEntries := entryId :: s.logEntries, dom := entryId :: s.dom }

/-- `panel.js` `fetchEventsFromStorage` (lines 269-295): read the stored
events (each carries an id), keep those whose id is not already in
`logEntries`, and `addLogEntry` each of them in order. Logging is
enabled; the fresh-id fallback is irrelevant because every stored event
has an id. -/
def fetchEventsFromStorage (s : PanelState) (events : List Nat) : PanelState :=
  let newEvents := events.filter (fun i => ¬ (i ∈ s.logEntries))
  newEvents.foldl (fun st i => addLogEntry true st (some i) 0) s

/-- Deliver a sequence of poll batches to the consumer. -/
def deliverBatches (batches : List (List Nat)) : PanelState :=
  batches.foldl fetchEventsFromStorage panelInit

theorem addLogEntry_spec (s : PanelState) (i fresh : Nat)
    (hdom : s.dom = s.logEntries) (hnd : s.logEntries.Nodup) :
    (addLogEntry true s (some i) fresh).dom = (addLogEntry true s (some i) fresh).logEntries ∧
    (addLogEntry true s (some i) fresh).logEntries.Nodup ∧
    (∀ j, j ∈ (addLogEntry true s (some i) fresh).logEntries ↔ j = i ∨ j ∈ s.logEntries) := by
  unfold addLogEntry
  simp only [panelEntryId]
  by_cases hmem : i ∈ s.logEntries
  · simp only [if_pos hmem, if_neg (by simp : ¬ (true = false))]
    refine ⟨hdom, hnd, fun j => ?_⟩
    constructor
    · exact fun h => Or.inr h
    · rintro (rfl | h)
      · exact hmem
      · exact h
  · simp only [if_neg hmem, if_neg (by simp : ¬ (true = false))]
    refine ⟨by simp [hdom], List.nodup_cons.mpr ⟨hmem, hnd⟩, fun j => ?_⟩
    simp [List.mem_cons]

theorem foldl_addLogEntry_spec :
    ∀ (b : List Nat) (s : PanelState), s.dom = s.logEntries → s.logEntries.Nodup →
      (b.foldl (fun st i => addLogEntry true st (some i) 0) s).dom
        = (b.foldl (fun st i => addLogEntry true st (some i) 0) s).logEntries ∧
      (b.foldl (fun st i => addLogEntry true st (some i) 0) s).logEntries.Nodup ∧
      (∀ j, j ∈ (b.foldl (fun st i => addLogEntry true st (some i) 0) s).logEntries
          ↔ j ∈ b ∨ j ∈ s.logEntries) := by
  intro b
  induction b with
  | nil => intro s hdom hnd; exact ⟨hdom, hnd, by simp⟩
  | cons i rest ih =>
    intro s hdom hnd
    obtain ⟨hdom1, hnd1, hmem1⟩ := addLogEntry_spec s i 0 hdom hnd
    obtain ⟨hdom2, hnd2, hmem2⟩ := ih (addLogEntry true s (some i) 0) hdom1 hnd1
    refine ⟨hdom2, hnd2, fun j => ?_⟩
    rw [List.foldl_cons] at *
    rw [hmem2 j, hmem1 j, List.mem_cons]
    tauto

theorem fetchEventsFromStorage_spec (s : PanelState) (events : List Nat)
    (hdom : s.dom = s.logEntries) (hnd : s.logEntries.Nodup) :
    (fetchEventsFromStorage s events).dom = (fetchEventsFromStorage s events).logEntries ∧
    (fetchEventsFromStorage s events).logEntries.Nodup ∧
    (∀ j, j ∈ (fetchEventsFromStorage s events).logEntries
        ↔ j ∈ events ∨ j ∈ s.logEntries) := by
  unfold fetchEventsFromStorage
  obtain ⟨hdom1, hnd1, hmem1⟩ :=
    foldl_addLogEntry_spec (events.filter (fun i => ¬ (i ∈ s.logEntries))) s hdom hnd
  refine ⟨hdom1, hnd1, fun j => ?_⟩
  rw [hmem1 j]
  constructor
  · rintro (hf | h)
    · exact Or.inl (List.mem_of_mem_filter hf)
    · exact Or.inr h
  · rintro (he | h)
    · by_cases hj : j ∈ s.logEntries
      · exact Or.inr hj
      · exact Or.inl (List.mem_filter.mpr ⟨he, by simpa using hj⟩)
    · exact Or.inr h

theorem deliverBatches_spec :
    ∀ (batches : List (List Nat)) (s : PanelState),
      s.dom = s.logEntries → s.logEntries.Nodup →
      (batches.foldl fetchEventsFromStorage s).dom
        = (batches.foldl fetchEventsFromStorage s).logEntries ∧
      (batches.foldl fetchEventsFromStorage s).logEntries.Nodup ∧
      (∀ j, j ∈ (batches.foldl fetchEventsFromStorage s).logEntries
          ↔ j ∈ batches.flatten ∨ j ∈ s.logEntries) := by
  intro batches
  induction batches with
  | nil => intro s hdom hnd; exact ⟨hdom, hnd, by simp⟩
  | cons b rest ih =>
    intro s hdom hnd
    obtain ⟨hdom1, hnd1, hmem1⟩ := fetchEventsFromStorage_spec s b hdom hnd
    obtain ⟨hdom2, hnd2, hmem2⟩ := ih (fetchEventsFromStorage s b) hdom1 hnd1
    refine ⟨hdom2, hnd2, fun j => ?_⟩
    rw [List.foldl_cons] at *
    rw [hmem2 j, hmem1 j]
    simp only [List.flatten_cons, List.mem_append]
    tauto

/-- C2: across any sequence of poll deliveries — including re-delivery
of the same id in later batches or within one batch — the consumer
renders each delivered id exactly once: its log DOM receives exactly one
element per distinct delivered id, and none for ids never delivered. -/
theorem consumer_renders_each_id_exactly_once :
    ∀ (batches : List (List Nat)) (i : Nat),
      (deliverBatches batches).dom.count i
        = if i ∈ batches.flatten then 1 else 0 := by
  intro batches i
  obtain ⟨hdom, hnd, hmem⟩ := deliverBatches_spec batches panelInit rfl List.nodup_nil
  unfold deliverBatches
  rw [hdom]
  by_cases hj : i ∈ batches.flatten
  · rw [if_pos hj]
    exact List.count_eq_one_of_mem hnd ((hmem i).mpr (by simp [panelInit, hj]))
  · rw [if_neg hj]
    rw [List.count_eq_zero]
    intro habs
    rcases (hmem i).mp habs with h | h
    · exact hj h
    · simp [panelInit] at h

theorem foldl_addLogEntry_fresh :
    ∀ (evs : List Nat) (s : PanelState), evs.Nodup →
      (∀ e ∈ evs, e ∉ s.logEntries) →
      (evs.foldl (fun st i => addLogEntry true st (some i) 0) s).logEntries
        = evs.reverse ++ s.logEntries ∧
      (evs.foldl (fun st i => addLogEntry true st (some i) 0) s).dom
        = evs.reverse ++ s.dom := by
  intro evs
  induction evs with
  | nil => intro s _ _; simp
  | cons e rest ih =>
    intro s hnd hfresh
    have hstep : addLogEntry true s (some e) 0
        = ⟨e :: s.logEntries, e :: s.dom⟩ := by
      unfold addLogEntry
      simp only [panelEntryId]
      rw [if_neg (by simp), if_neg (hfresh e (List.mem_cons_self e rest))]
    have hfresh2 : ∀ x ∈ rest, x ∉ (addLogEntry true s (some e) 0).logEntries := by
      intro x hx
      rw [hstep]
      simp only [List.mem_cons]
      rintro (rfl | hmem)
      · exact (List.nodup_cons.mp hnd).1 hx
      · exact hfresh x (List.mem_cons_of_mem e hx) hmem
    obtain ⟨h1, h2⟩ := ih (addLogEntry true s (some e) 0)
      (List.nodup_cons.mp hnd).2 hfresh2
    rw [List.foldl_cons] at *
    refine ⟨?_, ?_⟩
    · rw [h1, hstep]
      simp
    · rw [h2, hstep]
      simp

/-- C10: the panel consumer stores and displays its log newest-first:
processing a sequence of fresh events leaves `logEntries` (via
`unshift`) and the rendered DOM children (via `insertBefore` at the
container's first child) in exactly the reverse of arrival order. -/
theorem panel_newest_first_order :
    ∀ evs : List Nat, evs.Nodup →
      (evs.foldl (fun st i => addLogEntry true st (some i) 0) panelInit).logEntries
        = evs.reverse ∧
      (evs.foldl (fun st i => addLogEntry true st (some i) 0) panelInit).dom
        = evs.reverse := by
  intro evs hnd
  obtain ⟨h1, h2⟩ := foldl_addLogEntry_fresh evs panelInit hnd (by simp [panelInit])
  simpa [panelInit] using And.intro h1 h2

/-- Witness for C10 at the concrete arrival order `[1, 2, 3]`. -/
theorem panel_newest_first_order_witness :
    ([1, 2, 3] : List Nat).Nodup ∧
    (([1, 2, 3] : List Nat).foldl (fun st i => addLogEntry true st (some i) 0)
        panelInit).logEntries = [3, 2, 1] ∧
    (([1, 2, 3] : List Nat).foldl (fun st i => addLogEntry true st (some i) 0)
        panelInit).dom = [3, 2, 1] :=
  ⟨by decide, panel_newest_first_order [1, 2, 3] (by decide)⟩

/-! ### Event id assignment (C5) -/

/-- C5 counterexample: the event `⟨some 0, 5⟩` carries an id (the number
0), yet the background handler's falsy test `!message.data.id` fires and
reassigns it, so a downstream stage reassigns an already-present id,
contradicting the claim that a fresh id is generated only when the
incoming event has none. -/
theorem background_reassigns_zero_id :
    (⟨some 0, 5⟩ : AEvent).id = some 0 ∧
    (assignIdIfMissing ⟨some 0, 5⟩ 7).id = some 7 ∧
    assignIdIfMissing ⟨some 0, 5⟩ 7 ≠ ⟨some 0, 5⟩ := by
  refine ⟨rfl, rfl, ?_⟩
  decide

/-- C5 (amended): a present nonzero id is never reassigned downstream —
the background handler keeps it untouched and generates a fresh id only
when the incoming id is absent (or the JS-falsy 0), and the panel's
`addLogEntry` keeps any present id (the object spread restores it over
the computed fallback) and uses the fallback only when the id key is
absent. -/
theorem id_preserved_downstream_when_nonzero :
    (∀ (e : AEvent) (fresh k : Nat), e.id = some k → k ≠ 0 →
        assignIdIfMissing e fresh = e) ∧
    (∀ (e : AEvent) (fresh : Nat), e.id = none →
        (assignIdIfMissing e fresh).id = some fresh) ∧
    (∀ (k fresh : Nat), panelEntryId (some k) fresh = k) ∧
    (∀ fresh : Nat, panelEntryId none fresh = fresh) := by
  refine ⟨?_, ?_, fun k fresh => rfl, fun fresh => rfl⟩
  · intro e fresh k hid hk
    unfold assignIdIfMissing
    rw [if_neg]
    rw [hid]
    simp [idFalsy, hk]
  · intro e fresh hid
    unfold assignIdIfMissing
    rw [if_pos (by rw [hid]; rfl)]

/-- Witness for C5 (amended) at concrete events. -/
theorem id_preserved_downstream_witness :
    assignIdIfMissing ⟨some 3, 1⟩ 9 = ⟨some 3, 1⟩ ∧
    (assignIdIfMissing ⟨none, 1⟩ 9).id = some 9 ∧
    panelEntryId (some 3) 9 = 3 ∧
    panelEntryId none 9 = 9 :=
  ⟨id_preserved_downstream_when_nonzero.1 ⟨some 3, 1⟩ 9 3 rfl (by decide),
   id_preserved_downstream_when_nonzero.2.1 ⟨none, 1⟩ 9 rfl,
   id_preserved_downstream_when_nonzero.2.2.1 3 9,
   id_preserved_downstream_when_nonzero.2.2.2 9⟩

/-! ### TextReader (content.js Text Navigation Index) -/

/-- `content.js` `TextReader`: the flattened text segments and the
cursor `currentLineIndex`, a JS number (modelled as `Int`; the
constructor, lines 376-382, sets it to `0`). -/
structure TextReader where
  currentLineIndex : Int
  textLines : List String
  deriving DecidableEq, Repr

/-- The `TextReader` constructor: `currentLineIndex = 0` and
`textLines = extractTextLines()` (the extraction result is the
parameter). -/
def TextReader.init (lines : List String) : TextReader :=
  ⟨0, lines⟩

/-- JS array indexing `textLines[i]` for an integer index: the element
for `0 ≤ i < length`, `undefined` (= `none`) otherwise. -/
def getAt (l : List String) (i : Int) : Option String :=
  if 0 ≤ i then l[i.toNat]? else none

/-- `TextReader.getNextLineText` (lines 473-480): step the cursor to
`currentLineIndex + 1` and return that segment's text when the new
index is below `textLines.length`; otherwise return `null` and leave
the cursor alone. -/
def getNextLineText (r : TextReader) : Option String × TextReader :=
  let nextIndex := r.currentLineIndex + 1
  if nextIndex < (r.textLines.length : Int) then
    (getAt r.textLines nextIndex, { r with currentLineIndex := nextIndex })
  else
    (none, r)

/-- `TextReader.getPreviousLineText` (lines 485-492): step the cursor to
`currentLineIndex - 1` and return that segment's text when the new
index is at least 0; otherwise return `null` and leave the cursor
alone. -/
def getPreviousLineText (r : TextReader) : Option String × TextReader :=
  let prevIndex := r.currentLineIndex - 1
  if 0 ≤ prevIndex then
    (getAt r.textLines prevIndex, { r with currentLineIndex := prevIndex })
  else
    (none, r)

/-- `TextReader.getCurrentLineText` (lines 518-523): the text at the
cursor when it is within `[0, length)`, else `null`. -/
def getCurrentLineText (r : TextReader) : Option String :=
  if 0 ≤ r.currentLineIndex ∧ r.currentLineIndex < (r.textLines.length : Int) then
    getAt r.textLines r.currentLineIndex
  else
    none

/-- `TextReader.refresh` (lines 546-549): re-extract the text lines and
reset the cursor to 0. -/
def TextReader.refresh (_r : TextReader) (lines : List String) : TextReader :=
  ⟨0, lines⟩

/-- The scan of `TextReader.findLineFromElement` (lines 528-541): first
index whose line matches, starting the count at `i`. -/
def findLineAux (p : String → Bool) : List String → Nat → Option Nat
  | [], _ => none
  | t :: rest, i => if p t then some i else findLineAux p rest (i + 1)

/-- `TextReader.findLineFromElement`: on a match set the cursor to the
matched index and return it; otherwise return -1 and leave the cursor
alone. The element-containment test against each stored line is
abstracted as a predicate on lines. -/
def findLineFromElement (r : TextReader) (p : String → Bool) : Int × TextReader :=
  match findLineAux p r.textLines 0 with
  | some i => ((i : Int), { r with currentLineIndex := (i : Int) })
  | none => (-1, r)

/-- The cursor movement of one `getNextLineText` call. -/
def nextStep (r : TextReader) : TextReader :=
  (getNextLineText r).2

/-- The cursor movement of one `getPreviousLineText` call. -/
def prevStep (r : TextReader) : TextReader :=
  (getPreviousLineText r).2

/-- State after pressing ArrowDown (`getNextLineText`) `n` times. -/
def nextN : Nat → TextReader → TextReader
  | 0, r => r
  | n + 1, r => nextN n (nextStep r)

/-- State after pressing ArrowUp (`getPreviousLineText`) `n` times. -/
def backN : Nat → TextReader → TextReader
  | 0, r => r
  | n + 1, r => prevStep (backN n r)

/-- The ArrowDown branch of the keydown listener (content.js lines
769-777): call `getNextLineText`; a truthy result is reported as
`Next line: "..."`, a falsy one (null at the end, or an empty string)
as `End of content reached`. -/
def arrowDownText (r : TextReader) : String × TextReader :=
  let (res, r2) := getNextLineText r
  match res with
  | some t =>
      if t = "" then ("End of content reached", r2)
      else ("Next line: \"" ++ t ++ "\"", r2)
  | none => ("End of content reached", r2)

/-- C7 counterexample: the `TextReader` constructor sets the cursor to
0, not -1, and on a document with zero segments the cursor 0 lies
outside the claimed range `[-1, length) = [-1, 0)`. -/
theorem cursor_starts_at_zero_not_neg_one :
    (TextReader.init []).currentLineIndex = 0 ∧
    (TextReader.init []).currentLineIndex ≠ -1 ∧
    ¬ ((TextReader.init []).currentLineIndex
        < ((TextReader.init []).textLines.length : Int)) := by
  decide

/-- The cursor range the code actually maintains: nonnegative, and
within `[0, length)` except that it sits at 0 on an empty segment
list. -/
def ReaderInv (r : TextReader) : Prop :=
  0 ≤ r.currentLineIndex ∧
  (r.currentLineIndex < (r.textLines.length : Int) ∨ r.currentLineIndex = 0)

theorem findLineAux_lt (p : String → Bool) :
    ∀ (l : List String) (i j : Nat), findLineAux p l i = some j → j < i + l.length := by
  intro l
  induction l with
  | nil => intro i j h; simp [findLineAux] at h
  | cons t rest ih =>
    intro i j h
    rw [findLineAux] at h
    by_cases hp : p t
    · rw [if_pos hp] at h
      simp only [Option.some.injEq] at h
      simp [← h]
    · rw [if_neg hp] at h
      have := ih (i + 1) j h
      simp only [List.length_cons]
      omega

/-- C7 (amended): the constructor and `refresh` both set the cursor to
0 (not -1), and every cursor operation preserves the invariant
`0 ≤ cursor ∧ (cursor < length ∨ cursor = 0)` — in particular, after
`refresh` on a document with zero segments the cursor is 0, which is
outside the spec's claimed `[-1, length)`. -/
theorem cursor_invariant_amended :
    (∀ lines : List String, (TextReader.init lines).currentLineIndex = 0
        ∧ ReaderInv (TextReader.init lines)) ∧
    (∀ (r : TextReader) (lines : List String),
        (r.refresh lines).currentLineIndex = 0 ∧ ReaderInv (r.refresh lines)) ∧
    (∀ r : TextReader, ReaderInv r → ReaderInv (nextStep r)) ∧
    (∀ r : TextReader, ReaderInv r → ReaderInv (prevStep r)) ∧
    (∀ (r : TextReader) (p : String → Bool), ReaderInv r →
        ReaderInv (findLineFromElement r p).2) := by
  refine ⟨?_, ?_, ?_, ?_, ?_⟩
  · intro lines
    exact ⟨rfl, le_refl 0, Or.inr rfl⟩
  · intro r lines
    exact ⟨rfl, le_refl 0, Or.inr rfl⟩
  · intro r hr
    obtain ⟨h0, hrange⟩ := hr
    unfold nextStep getNextLineText
    by_cases h : r.currentLineIndex + 1 < (r.textLines.length : Int)
    · rw [if_pos h]
      refine ⟨?_, Or.inl ?_⟩ <;> dsimp only <;> omega
    · rw [if_neg h]
      exact ⟨h0, hrange⟩
  · intro r hr
    obtain ⟨h0, hrange⟩ := hr
    unfold prevStep getPreviousLineText
    by_cases h : 0 ≤ r.currentLineIndex - 1
    · rw [if_pos h]
      refine ⟨?_, Or.inl ?_⟩ <;> dsimp only
      · omega
      · rcases hrange with hlt | hzero <;> omega
    · rw [if_neg h]
      exact ⟨h0, hrange⟩
  · intro r p hr
    unfold findLineFromElement
    cases hfind : findLineAux p r.textLines 0 with
    | none => exact hr
    | some i =>
      have hi := findLineAux_lt p r.textLines 0 i hfind
      simp only [Nat.zero_add] at hi
      refine ⟨?_, Or.inl ?_⟩ <;> dsimp only
      · exact_mod_cast Nat.zero_le i
      · exact_mod_cast hi

/-- Witness for C7 (amended): the invariant-preservation parts applied
at a concrete reader. -/
theorem cursor_invariant_amended_witness :
    ReaderInv (TextReader.init ["a", "b"]) ∧
    ReaderInv (nextStep (TextReader.init ["a", "b"])) ∧
    ReaderInv (prevStep (TextReader.init ["a", "b"])) ∧
    ReaderInv (findLineFromElement (TextReader.init ["a", "b"]) (fun t => t = "b")).2 :=
  ⟨(cursor_invariant_amended.1 ["a", "b"]).2,
   cursor_invariant_amended.2.2.1 (TextReader.init ["a", "b"])
     (cursor_invariant_amended.1 ["a", "b"]).2,
   cursor_invariant_amended.2.2.2.1 (TextReader.init ["a", "b"])
     (cursor_invariant_amended.1 ["a", "b"]).2,
   cursor_invariant_amended.2.2.2.2 (TextReader.init ["a", "b"]) (fun t => t = "b")
     (cursor_invariant_amended.1 ["a", "b"]).2⟩

theorem nextStep_eq (r : TextReader)
    (h : r.currentLineIndex + 1 < (r.textLines.length : Int)) :
    nextStep r = ⟨r.currentLineIndex + 1, r.textLines⟩ := by
  unfold nextStep getNextLineText
  rw [if_pos h]

theorem prevStep_eq (r : TextReader) (h : 0 ≤ r.currentLineIndex - 1) :
    prevStep r = ⟨r.currentLineIndex - 1, r.textLines⟩ := by
  unfold prevStep getPreviousLineText
  rw [if_pos h]

theorem backN_nextN_of_lt :
    ∀ (n : Nat) (r : TextReader), 0 ≤ r.currentLineIndex →
      r.currentLineIndex + (n : Int) < (r.textLines.length : Int) →
      backN n (nextN n r) = r := by
  intro n
  induction n with
  | zero => intro r _ _; rfl
  | succ n ih =>
    intro r h0 hlt
    have h1 : r.currentLineIndex + 1 < (r.textLines.length : Int) := by
      push_cast at hlt
      omega
    have hstep : nextStep r = ⟨r.currentLineIndex + 1, r.textLines⟩ := nextStep_eq r h1
    have hih : backN n (nextN n (nextStep r)) = nextStep r := by
      apply ih
      · rw [hstep]
        dsimp only
        omega
      · rw [hstep]
        dsimp only
        push_cast at hlt ⊢
        omega
    have hdef : nextN (n + 1) r = nextN n (nextStep r) := rfl
    have hdef2 : ∀ t, backN (n + 1) t = prevStep (backN n t) := fun t => rfl
    rw [hdef, hdef2, hih, hstep, prevStep_eq]
    · dsimp only
      have : r.currentLineIndex + 1 - 1 = r.currentLineIndex := by omega
      rw [this]
    · dsimp only
      omega

/-- C8 counterexample: with two segments and the cursor at the last
index 1, one forward step saturates at the end (cursor unchanged) but
the following backward step still moves, so forward-then-backward does
not return the cursor to its original segment. -/
theorem forward_back_not_inverse_at_boundary :
    (nextStep (TextReader.init ["a", "b"])).currentLineIndex = 1 ∧
    (backN 1 (nextN 1 (nextStep (TextReader.init ["a", "b"])))).currentLineIndex = 0 ∧
    backN 1 (nextN 1 (nextStep (TextReader.init ["a", "b"])))
      ≠ nextStep (TextReader.init ["a", "b"]) := by
  decide

/-- C8 (amended): when no end boundary is hit — the cursor is
nonnegative and all `n` forward steps stay below the segment count —
moving the cursor forward `n` times and then backward `n` times
restores the reader exactly, and in particular the current segment
text. -/
theorem forward_back_roundtrip_within_bounds :
    ∀ (r : TextReader) (n : Nat), 0 ≤ r.currentLineIndex →
      r.currentLineIndex + (n : Int) < (r.textLines.length : Int) →
      backN n (nextN n r) = r ∧
      getCurrentLineText (backN n (nextN n r)) = getCurrentLineText r := by
  intro r n h0 hlt
  have h := backN_nextN_of_lt n r h0 hlt
  exact ⟨h, by rw [h]⟩

/-- Witness for C8 (amended) with three segments and two steps. -/
theorem forward_back_roundtrip_witness :
    0 ≤ (TextReader.init ["a", "b", "c"]).currentLineIndex ∧
    (TextReader.init ["a", "b", "c"]).currentLineIndex + (2 : Nat)
      < ((TextReader.init ["a", "b", "c"]).textLines.length : Int) ∧
    backN 2 (nextN 2 (TextReader.init ["a", "b", "c"])) = TextReader.init ["a", "b", "c"] :=
  ⟨by decide, by decide,
   (forward_back_roundtrip_within_bounds (TextReader.init ["a", "b", "c"]) 2
     (by decide) (by decide)).1⟩

/-- The five indexed text segments of the C9 scenario. -/
def demoLines : List String := ["alpha", "bravo", "charlie", "delta", "echo"]

/-- C9: with 5 indexed segments and the cursor at -1, three ArrowDown
presses report the newly-current segment texts and leave the cursor at
2; with the cursor at the last index 4, a further ArrowDown reports
`End of content reached` and leaves the cursor at 4. -/
theorem arrow_down_scenario :
    (arrowDownText ⟨-1, demoLines⟩).1 = "Next line: \"alpha\"" ∧
    ((arrowDownText ⟨-1, demoLines⟩).2).currentLineIndex = 0 ∧
    (arrowDownText ((arrowDownText ⟨-1, demoLines⟩).2)).1 = "Next line: \"bravo\"" ∧
    ((arrowDownText ((arrowDownText ⟨-1, demoLines⟩).2)).2).currentLineIndex = 1 ∧
    (arrowDownText ((arrowDownText ((arrowDownText ⟨-1, demoLines⟩).2)).2)).1
      = "Next line: \"charlie\"" ∧
    ((arrowDownText ((arrowDownText ((arrowDownText ⟨-1, demoLines⟩).2)).2)).2).currentLineIndex
      = 2 ∧
    (arrowDownText ⟨4, demoLines⟩).1 = "End of content reached" ∧
    ((arrowDownText ⟨4, demoLines⟩).2).currentLineIndex = 4 := by
  decide

/-! ### Lifecycle / reinitialization (content.js) -/

/-- The `AccessibilityMonitor` instance fields relevant to lifecycle:
readiness, the local queue, and the bookkeeping arrays `observers` /
`eventListeners` plus the `connectionCheckInterval` handle. Registered
listeners and observers are identified by the generation number of the
`init()` call that created them (each call builds fresh closures). -/
structure MonitorCore where
  isDevToolsReady : Bool
  eventQueue : List Nat
  observers : List Nat
  eventListeners : List Nat
  connectionCheckInterval : Option Nat
  deriving DecidableEq, Repr

/-- The monitor plus the browser-side registrations it manipulates:
the listener sets actually installed on the document/runtime
(`docListeners`), the connected mutation observers, the running
intervals, and the count of `setTimeout(() => this.init(), 100)`
callbacks still pending from `reinitialize`. One entry per generation:
`init()` registers its whole listener set atomically. -/
structure BrowserWorld where
  core : MonitorCore
  docListeners : List Nat
  activeObservers : List Nat
  activeIntervals : List Nat
  pendingInits : Nat
  nextGen : Nat
  deriving DecidableEq, Repr

/-- `AccessibilityMonitor.init()` (lines 569-575): register the
connection-check interval (overwriting the stored handle), the runtime
message listener, the focus / keydown / visibilitychange listeners, and
the mutation observer, recording each in the bookkeeping arrays. -/
def initMonitor (w : BrowserWorld) : BrowserWorld :=
  let gen := w.nextGen
  { core := { w.core with
      connectionCheckInterval := some gen,
      observers := w.core.observers ++ [gen],
      eventListeners := w.core.eventListeners ++ [gen] },
    docListeners := w.docListeners ++ [gen],
    activeObservers := w.activeObservers ++ [gen],
    activeIntervals := w.activeIntervals ++ [gen],
    pendingInits := w.pendingInits,
    nextGen := gen + 1 }

/-- `AccessibilityMonitor.cleanup()` (lines 912-932): clear the tracked
interval, disconnect every tracked observer, remove every tracked
listener, and empty the bookkeeping arrays. Only registrations the
instance tracked are removed. -/
def cleanupMonitor (w : BrowserWorld) : BrowserWorld :=
  { core := { w.core with
      connectionCheckInterval := none,
      observers := [],
      eventListeners := [] },
    docListeners := w.docListeners.filter (fun g => ¬ (g ∈ w.core.eventListeners)),
    activeObservers := w.activeObservers.filter (fun g => ¬ (g ∈ w.core.observers)),
    activeIntervals :=
      match w.core.connectionCheckInterval with
      | some g => w.activeIntervals.erase g
      | none => w.activeIntervals,
    pendingInits := w.pendingInits,
    nextGen := w.nextGen }

/-- `AccessibilityMonitor.reinitialize()` (lines 673-684): `cleanup()`,
reset readiness and the queue and the bookkeeping arrays, then schedule
`init()` behind a 100ms `setTimeout` — the pending timer is not tracked
and is never cancelled by a later `reinitialize()`. -/
def reinitializeMonitor (w : BrowserWorld) : BrowserWorld :=
  let w1 := cleanupMonitor w
  { w1 with
    core := { w1.core with
      isDevToolsReady := false,
      eventQueue := [],
      observers := [],
      eventListeners := [] },
    pendingInits := w1.pendingInits + 1 }

/-- One pending `setTimeout` callback from `reinitialize` fires and runs
`init()`. -/
def fireInit (w : BrowserWorld) : BrowserWorld :=
  if w.pendingInits > 0 then
    initMonitor { w with pendingInits := w.pendingInits - 1 }
  else
    w

/-- The world before any monitor exists. -/
def blankWorld : BrowserWorld := ⟨⟨false, [], [], [], none⟩, [], [], [], 0, 0⟩

/-- A freshly constructed monitor (the constructor calls `init()`
synchronously). -/
def monitorStart : BrowserWorld := initMonitor blankWorld

/-- C6 counterexample: invoking `reinitialize` twice in succession
schedules two untracked delayed `init()` calls; once both fire, two
generations of listeners and observers are registered at the same time,
not the claimed single active set. -/
theorem double_reinit_two_generations :
    (fireInit (fireInit (reinitializeMonitor (reinitializeMonitor monitorStart)))).docListeners.length
      = 2 ∧
    (fireInit (fireInit (reinitializeMonitor (reinitializeMonitor monitorStart)))).activeObservers.length
      = 2 ∧
    ¬ ((fireInit (fireInit (reinitializeMonitor (reinitializeMonitor monitorStart)))).docListeners.length
      = 1) := by
  decide

/-- C6 (amended): `reinitialize` leaves readiness false and the tracked
listener/observer sets empty immediately after teardown, before the
delayed `init()` runs; and when each reinitialization's delayed
`init()` fires before the next `reinitialize` call, exactly one
generation of listeners, observers and intervals is active afterwards.
Two `reinitialize` calls before either delayed `init()` fires, however,
leave two coexisting generations. -/
theorem reinit_teardown_and_sequential_single_generation :
    (∀ w : BrowserWorld,
        (reinitializeMonitor w).core.isDevToolsReady = false ∧
        (reinitializeMonitor w).core.eventQueue = [] ∧
        (reinitializeMonitor w).core.observers = [] ∧
        (reinitializeMonitor w).core.eventListeners = []) ∧
    (fireInit (reinitializeMonitor (fireInit (reinitializeMonitor monitorStart)))).docListeners.length
      = 1 ∧
    (fireInit (reinitializeMonitor (fireInit (reinitializeMonitor monitorStart)))).activeObservers.length
      = 1 ∧
    (fireInit (reinitializeMonitor (fireInit (reinitializeMonitor monitorStart)))).activeIntervals.length
      = 1 := by
  refine ⟨fun w => ⟨rfl, rfl, rfl, rfl⟩, ?_, ?_, ?_⟩ <;> decide
